import Mathlib

/-!
Verification of the `GusdXformWrapper` plugin code
(`third_party/houdini/lib/gusd/xformWrapper.cpp`) and of the `HdMesh`
inline accessor layer (`pxr/imaging/lib/hd/mesh.h`).

The wrapper code drives a USD stage through the USD core API
(`UsdStage::GetPrimAtPath`, `UsdStage::OverridePrim`,
`UsdGeomXform::Define`, schema validity).  The USD core itself is not
among the given sources, so the stage is modelled here: a prim path is
the list of its name components from the pseudo-root, and a stage is an
association list from paths to prim type names.  All wrapper functions
are translated directly from the C++ source and thread the stage state
explicitly.
-/

namespace USD

/-- A prim path, as the list of prim-name components below the
pseudo-root; `[]` denotes the pseudo-root path `/`. -/
abbrev SdfPath := List String

/-- A snapshot of a prim: its path and its composed type name
(empty string when the prim has no type). -/
structure UsdPrim where
  path : SdfPath
  typeName : String
deriving DecidableEq, Repr

/-- Modelled from the spec: the flattened view of a USD stage that the
wrapper manipulates — which prim paths carry a prim, and each prim's
type name.  The pseudo-root is implicit (always present, empty type). -/
structure UsdStage where
  prims : List (SdfPath × String)
deriving DecidableEq, Repr

/-- Look a path up in a stage's prim list (first entry wins). -/
def lookupType : List (SdfPath × String) → SdfPath → Option String
  | [], _ => none
  | e :: rest, p => if e.1 = p then some e.2 else lookupType rest p

/-- The type name of the prim at `p`, when a prim entry exists there. -/
def UsdStage.typeNameAt (st : UsdStage) (p : SdfPath) : Option String :=
  lookupType st.prims p

/-- Whether a (non-pseudo-root) prim entry exists at `p`. -/
def UsdStage.hasPrimEntry (st : UsdStage) (p : SdfPath) : Bool :=
  (lookupType st.prims p).isSome

/-- `UsdStage::GetPrimAtPath`: the pseudo-root always exists and has an
empty type name; any other path yields a prim exactly when the stage
has an entry for it. -/
def UsdStage.getPrimAtPath (st : UsdStage) (p : SdfPath) : Option UsdPrim :=
  if p = [] then some ⟨[], ""⟩
  else (st.typeNameAt p).map (fun ty => ⟨p, ty⟩)

/-- Fuel-driven parent walk (each step drops the last path component,
so `p.length` fuel always suffices); structural recursion keeps the
definition computable by the kernel. -/
def ancestorChainFromAux : Nat → SdfPath → List SdfPath
  | 0, _ => []
  | _ + 1, [] => []
  | n + 1, p@(_ :: _) => p :: ancestorChainFromAux n p.dropLast

/-- The chain of ancestors of a path starting at the path itself and
walking parent-by-parent, excluding the pseudo-root:
`ancestorChainFrom [a,b,c] = [[a,b,c],[a,b],[a]]`. -/
def ancestorChainFrom (p : SdfPath) : List SdfPath :=
  ancestorChainFromAux p.length p

/-- Replace the type name recorded at `p` (first entry), or append a new
entry when none exists. -/
def setTypeList : List (SdfPath × String) → SdfPath → String → List (SdfPath × String)
  | [], p, ty => [(p, ty)]
  | e :: rest, p, ty => if e.1 = p then (p, ty) :: rest else e :: setTypeList rest p ty

/-- Author the type name `ty` on the prim at `p`. -/
def UsdStage.setType (st : UsdStage) (p : SdfPath) (ty : String) : UsdStage :=
  ⟨setTypeList st.prims p ty⟩

/-- Ensure a prim entry exists at `p` (typeless when newly created); the
pseudo-root needs no entry. -/
def UsdStage.ensurePrim (st : UsdStage) (p : SdfPath) : UsdStage :=
  if p = [] then st
  else if (lookupType st.prims p).isSome then st else ⟨(p, "") :: st.prims⟩

/-- Ensure prim entries exist at every path in the list. -/
def UsdStage.ensureChain (st : UsdStage) : List SdfPath → UsdStage
  | [] => st
  | q :: rest => (st.ensurePrim q).ensureChain rest

/-- Modelled from the spec: `UsdStage::DefinePrim` — defining a prim at
a non-root path creates any missing ancestors as typeless prims and
authors the requested type name at the path; defining the pseudo-root
fails.  Returns the updated stage and the defined prim. -/
def UsdStage.definePrim (st : UsdStage) (p : SdfPath) (ty : String) :
    UsdStage × Option UsdPrim :=
  if p = [] then (st, none)
  else ((st.ensureChain (ancestorChainFrom p.dropLast)).setType p ty, some ⟨p, ty⟩)

/-- Modelled from the spec: `UsdStage::OverridePrim` — ensures a prim
(and its ancestors) exist at a non-root path without authoring any type
name, and returns the prim now at that path; fails on the pseudo-root. -/
def UsdStage.overridePrim (st : UsdStage) (p : SdfPath) : UsdStage × Option UsdPrim :=
  if p = [] then (st, none)
  else
    let st1 := (st.ensureChain (ancestorChainFrom p.dropLast)).ensurePrim p
    (st1, st1.getPrimAtPath p)

/-- Modelled from the spec: the concrete schema types that derive from
`UsdGeomXformable` in the schema registry (the registry is not among the
given sources; a representative set is used — the relevant fact is that
`Xform` is Xformable while the empty type name and `Scope` are not). -/
def isXformableType (ty : String) : Bool :=
  ty = "Xform" || ty = "Mesh" || ty = "Sphere" || ty = "Camera"

/-- A `UsdGeomXformable` schema handle: it wraps a prim (possibly
invalid). -/
structure UsdGeomXformable where
  prim : Option UsdPrim
deriving DecidableEq, Repr

/-- Schema validity (`explicit operator bool`): the held prim is valid
and its type derives from Xformable. -/
def UsdGeomXformable.isValid (x : UsdGeomXformable) : Bool :=
  match x.prim with
  | none => false
  | some pr => isXformableType pr.typeName

/-- A `UsdGeomXform` schema handle. -/
structure UsdGeomXform where
  prim : Option UsdPrim
deriving DecidableEq, Repr

/-- `UsdGeomXform::Define(stage, path)`: defines a prim of type
`Xform` at `path`. -/
def UsdGeomXform.define (st : UsdStage) (p : SdfPath) : UsdStage × Option UsdPrim :=
  st.definePrim p "Xform"

/-- The ancestor-fixing loop of `GusdXformWrapper::initUsdPrim`
(xformWrapper.cpp, lines 105-109):

    UsdPrim p = m_usdXformForWrite.GetPrim().GetParent();
    while( p && p.GetTypeName().IsEmpty() ) {
        UsdGeomXform::Define( stage, p.GetPath() );
        p = p.GetParent();
    }

`p` here is the path of the current ancestor prim; the pseudo-root is a
valid prim with an empty type name whose parent is invalid, so when the
walk reaches it the loop body runs once more (a failing define of the
root, with no effect) and then exits.  The loop is written with fuel
(each iteration drops one path component, so `p.length + 1` fuel always
suffices) to keep it structurally recursive. -/
def fixAncestorsAux : Nat → UsdStage → SdfPath → UsdStage
  | 0, st, _ => st
  | n + 1, st, p =>
    match st.getPrimAtPath p with
    | none => st
    | some pr =>
      if pr.typeName = "" then
        let st1 := (UsdGeomXform.define st p).1
        if p = [] then st1
        else fixAncestorsAux n st1 p.dropLast
      else st

/-- The ancestor-fixing loop, started with enough fuel. -/
def UsdStage.fixAncestors (st : UsdStage) (p : SdfPath) : UsdStage :=
  fixAncestorsAux (p.length + 1) st p

/-- The outcome of `GusdXformWrapper::initUsdPrim`: the updated stage,
the member `m_usdXformForWrite`, and the returned boolean. -/
structure InitResult where
  stage : UsdStage
  xf : UsdGeomXformable
  ret : Bool
deriving DecidableEq, Repr

/-- `GusdXformWrapper::initUsdPrim` (xformWrapper.cpp, lines 85-119),
translated case by case: in override mode with an existing prim it
wraps `stage->OverridePrim(path)` as a generic Xformable; in override
mode with no existing prim it defines an `Xform` at the path and runs
the ancestor-fixing loop from the new prim's parent; otherwise it just
defines an `Xform` at the path.  It returns `bool(m_usdXformForWrite)`. -/
def initUsdPrim (st : UsdStage) (path : SdfPath) (asOverride : Bool) : InitResult :=
  if asOverride then
    match st.getPrimAtPath path with
    | some _ =>
      let r := st.overridePrim path
      let xf : UsdGeomXformable := ⟨r.2⟩
      ⟨r.1, xf, xf.isValid⟩
    | none =>
      let r := UsdGeomXform.define st path
      let xf : UsdGeomXformable := ⟨r.2⟩
      match r.2 with
      | none => ⟨r.1, xf, xf.isValid⟩
      | some pr => ⟨(r.1).fixAncestors pr.path.dropLast, xf, xf.isValid⟩
  else
    let r := UsdGeomXform.define st path
    let xf : UsdGeomXformable := ⟨r.2⟩
    ⟨r.1, xf, xf.isValid⟩

/-- `UsdTimeCode`, reduced to its ordinal value (the claims only store
and pass time codes, never compute with them). -/
abbrev UsdTimeCode := Int

/-- `GusdPurposeSet`, a bitmask of purposes. -/
abbrev GusdPurposeSet := Nat

/-- Modelled from the spec: a `GusdUSD_StageProxy` handle — the claims
only need that it carries a stage lock that the read holder captures. -/
structure GusdUSD_StageProxy where
  lock : Nat
deriving DecidableEq, Repr

/-- The read-side holder `GusdUSD_XformHolder`: the wrapped
`UsdGeomXform` together with the stage's lock. -/
structure GusdUSD_XformHolder where
  xform : UsdGeomXform
  lock : Nat
deriving DecidableEq, Repr

/-- A `GT_PrimitiveHandle`, opaque to the wrapper logic. -/
structure GT_PrimitiveHandle where
  data : Nat
deriving DecidableEq, Repr

/-- Modelled from the spec: the fields of `GusdContext` the wrapper
consults (`overlayGeo`) plus the remaining context state, opaque here. -/
structure GusdContext where
  overlayGeo : Bool
  otherState : Nat
deriving DecidableEq, Repr

/-- A `UT_Matrix4D`, opaque to the wrapper logic (its float entries are
never inspected by the translated code). -/
structure UT_Matrix4D where
  entries : List Int
deriving DecidableEq, Repr

/-- A `GusdSimpleXformCache`: transforms cached per path. -/
abbrev GusdSimpleXformCache := List (SdfPath × UT_Matrix4D)

/-- A `UT_BoundingBox`, opaque to the wrapper logic. -/
structure UT_BoundingBox where
  bounds : List Int
deriving DecidableEq, Repr

/-- A `UsdGeomImageable` schema handle. -/
structure UsdGeomImageable where
  prim : Option UsdPrim
deriving DecidableEq, Repr

/-- The state of a `GusdXformWrapper`: the write-side Xformable, the
read-side holder, the stage proxy, and the base-class state
(`GusdGroupBaseWrapper`: time, purposes and its caches, modelled from
the spec as the set of cached entries that `clearCaches` empties). -/
structure GusdXformWrapper where
  usdXformForWrite : UsdGeomXformable
  usdXformForRead : Option GusdUSD_XformHolder
  stageProxy : Option GusdUSD_StageProxy
  time : UsdTimeCode
  purposes : GusdPurposeSet
  caches : List SdfPath
deriving DecidableEq, Repr

namespace GusdXformWrapper

/-- The write constructor (xformWrapper.cpp, lines 55-61): default base
state, then `initUsdPrim(stage, path, isOverride)`.  Returns the
constructed wrapper and the updated stage. -/
def mkForWrite (st : UsdStage) (path : SdfPath) (isOverride : Bool) :
    GusdXformWrapper × UsdStage :=
  let r := initUsdPrim st path isOverride
  ({ usdXformForWrite := r.xf
   , usdXformForRead := none
   , stageProxy := none
   , time := 0
   , purposes := 0
   , caches := [] }, r.stage)

/-- The read constructor (xformWrapper.cpp, lines 63-72): stores the
time and purposes in the base, wraps the xform with the stage's lock as
the read-side holder, and keeps the stage proxy; the write side is left
default-constructed (invalid). -/
def mkForRead (stage : GusdUSD_StageProxy) (usdXform : UsdGeomXform)
    (time : UsdTimeCode) (purposes : GusdPurposeSet) : GusdXformWrapper :=
  { usdXformForWrite := ⟨none⟩
  , usdXformForRead := some ⟨usdXform, stage.lock⟩
  , stageProxy := some stage
  , time := time
  , purposes := purposes
  , caches := [] }

/-- `GusdXformWrapper::defineForWrite` (xformWrapper.cpp, lines
121-132): constructs a new wrapper from the stage, path and
`ctxt.overlayGeo`; the source primitive is not used. -/
def defineForWrite (_sourcePrim : GT_PrimitiveHandle) (st : UsdStage)
    (path : SdfPath) (ctxt : GusdContext) : GusdXformWrapper × UsdStage :=
  mkForWrite st path ctxt.overlayGeo

/-- `GusdXformWrapper::defineForRead` (xformWrapper.cpp, lines
134-146): constructs a read wrapper around
`UsdGeomXform(sourcePrim.GetPrim())`. -/
def defineForRead (stage : GusdUSD_StageProxy) (sourcePrim : UsdGeomImageable)
    (time : UsdTimeCode) (purposes : GusdPurposeSet) : GusdXformWrapper :=
  mkForRead stage ⟨sourcePrim.prim⟩ time purposes

/-- `GusdXformWrapper::redefine` (xformWrapper.cpp, lines 148-157):
re-runs `initUsdPrim(stage, path, ctxt.overlayGeo)` into the write-side
member, clears the caches, and returns `true`.  Returns the result,
the updated wrapper and the updated stage. -/
def redefine (w : GusdXformWrapper) (st : UsdStage) (path : SdfPath)
    (ctxt : GusdContext) (_sourcePrim : GT_PrimitiveHandle) :
    Bool × GusdXformWrapper × UsdStage :=
  let r := initUsdPrim st path ctxt.overlayGeo
  (true, { w with usdXformForWrite := r.xf, caches := [] }, r.stage)

/-- `GusdXformWrapper::isValid` (xformWrapper.cpp, lines 204-208),
translated verbatim: `return m_usdXformForWrite || m_usdXformForWrite;`
— both operands of the disjunction test the write-side member. -/
def isValid (w : GusdXformWrapper) : Bool :=
  w.usdXformForWrite.isValid || w.usdXformForWrite.isValid

/-- `GusdXformWrapper::updateFromGTPrim` (xformWrapper.cpp, lines
238-250): bails out with `false` when the write-side Xformable is
invalid, otherwise delegates to `updateGroupFromGTPrim` (a base-class
member not among the given sources, taken here as a parameter). -/
def updateFromGTPrim
    (updateGroupFromGTPrim : UsdGeomXformable → GT_PrimitiveHandle →
      UT_Matrix4D → GusdContext → GusdSimpleXformCache → UsdStage →
      Bool × UsdStage)
    (w : GusdXformWrapper) (sourcePrim : GT_PrimitiveHandle)
    (localXform : UT_Matrix4D) (ctxt : GusdContext)
    (xformCache : GusdSimpleXformCache) (st : UsdStage) : Bool × UsdStage :=
  if !w.usdXformForWrite.isValid then (false, st)
  else updateGroupFromGTPrim w.usdXformForWrite sourcePrim localXform ctxt
         xformCache st

/-- `GusdXformWrapper::enlargeBounds` (xformWrapper.cpp, lines
174-178): an empty body — the array of boxes is returned untouched. -/
def enlargeBounds (_w : GusdXformWrapper) (boxes : List UT_BoundingBox)
    (_nsegments : Int) : List UT_BoundingBox :=
  boxes

/-- `GusdXformWrapper::getMotionSegments` (xformWrapper.cpp, lines
181-186). -/
def getMotionSegments (_w : GusdXformWrapper) : Int := 1

/-- `GusdXformWrapper::getMemoryUsage` (xformWrapper.cpp, lines
189-194). -/
def getMemoryUsage (_w : GusdXformWrapper) : Int := 0

end GusdXformWrapper

end USD

namespace Hd

/-- A `TfToken`, interned string. -/
abbrev TfToken := String

/-- `HdMeshGeomStyle` (from hd/enums.h, not among the given sources;
the members named by mesh.h plus representative others). -/
inductive HdMeshGeomStyle where
  | Invalid
  | Surface
  | SurfaceOutline
  | EdgeOnly
  | Points
deriving DecidableEq, Repr

/-- `HdCullStyle` (from hd/enums.h, not among the given sources; the
members named by mesh.h plus representative others). -/
inductive HdCullStyle where
  | DontCare
  | Nothing
  | Back
  | Front
deriving DecidableEq, Repr

/-- `HdMeshReprDesc` (mesh.h, lines 42-60): a descriptor configuring a
draw item of a repr; the field initializers are the constructor's
default arguments. -/
structure HdMeshReprDesc where
  geomStyle : HdMeshGeomStyle := .Invalid
  cullStyle : HdCullStyle := .DontCare
  lit : Bool := false
  smoothNormals : Bool := false
  blendWireframeColor : Bool := true
deriving DecidableEq, Repr

/-- A default-constructed `HdMeshReprDesc()`. -/
def HdMeshReprDesc.mkDefault : HdMeshReprDesc := {}

/-- Modelled from the spec: the static
`_ReprDescConfigs<HdMeshReprDesc, 2>` store (its template source is not
among the given sources) — per repr name, the most recently configured
pair of descriptors. -/
structure MeshReprConfig where
  configs : List (TfToken × (HdMeshReprDesc × HdMeshReprDesc))
deriving DecidableEq, Repr

/-- Modelled from the spec: appending a configuration for a repr name;
the most recent entry shadows earlier ones for the same name. -/
def MeshReprConfig.append (c : MeshReprConfig) (reprName : TfToken)
    (descs : HdMeshReprDesc × HdMeshReprDesc) : MeshReprConfig :=
  ⟨(reprName, descs) :: c.configs⟩

/-- Modelled from the spec: looking up the descriptor pair configured
for a repr name (a default pair when the name was never configured). -/
def MeshReprConfig.find (c : MeshReprConfig) (reprName : TfToken) :
    HdMeshReprDesc × HdMeshReprDesc :=
  match c.configs.find? (fun e => e.1 == reprName) with
  | some e => e.2
  | none => (HdMeshReprDesc.mkDefault, HdMeshReprDesc.mkDefault)

/-- `HdMesh::ConfigureRepr(reprName, desc1, desc2)` (mesh.h, lines
89-95) acting on the static configuration state. -/
def ConfigureRepr (c : MeshReprConfig) (reprName : TfToken)
    (desc1 desc2 : HdMeshReprDesc) : MeshReprConfig :=
  c.append reprName (desc1, desc2)

/-- `HdMesh::ConfigureRepr(reprName, desc1)` with the second descriptor
defaulted (`desc2=HdMeshReprDesc()`, mesh.h line 95). -/
def ConfigureRepr1 (c : MeshReprConfig) (reprName : TfToken)
    (desc1 : HdMeshReprDesc) : MeshReprConfig :=
  ConfigureRepr c reprName desc1 HdMeshReprDesc.mkDefault

/-- `HdMesh::_GetReprDesc(reprName)` (mesh.h, lines 104-108). -/
def GetReprDesc (c : MeshReprConfig) (reprName : TfToken) :
    HdMeshReprDesc × HdMeshReprDesc :=
  c.find reprName

/-- An `HdMeshTopology` value, opaque to the accessor layer. -/
structure HdMeshTopology where
  data : Nat
deriving DecidableEq, Repr

/-- A `PxOsdSubdivTags` value, opaque to the accessor layer. -/
structure PxOsdSubdivTags where
  data : Nat
deriving DecidableEq, Repr

/-- A `VtValue`, opaque to the accessor layer. -/
structure VtValue where
  data : Nat
deriving DecidableEq, Repr

/-- An `SdfPath` on the Hydra side (prim id). -/
abbrev SdfPath := List String

/-- An `HdSceneDelegate`, as the family of queries the mesh accessors
route through. -/
structure HdSceneDelegate where
  GetDoubleSided : SdfPath → Bool
  GetCullStyle : SdfPath → HdCullStyle
  GetMeshTopology : SdfPath → HdMeshTopology
  GetRefineLevel : SdfPath → Int
  GetSubdivTags : SdfPath → PxOsdSubdivTags
  Get : SdfPath → TfToken → VtValue

/-- The per-instance state of an `HdMesh`: its id (`GetId()`). -/
structure HdMesh where
  id : SdfPath
deriving DecidableEq, Repr

/-- The fixed tokens used by the primvar accessors (`HdTokens->points`,
`HdTokens->normals`). -/
def HdTokensPoints : TfToken := "points"

/-- The fixed token `HdTokens->normals`. -/
def HdTokensNormals : TfToken := "normals"

namespace HdMesh

/-- Modelled from the spec: `HdRprim::GetPrimVar`, the generic primvar
lookup on the scene delegate (the rprim base source is not among the
given sources). -/
def GetPrimVar (m : HdMesh) (delegate : HdSceneDelegate) (name : TfToken) :
    VtValue :=
  delegate.Get m.id name

/-- `HdMesh::IsDoubleSided` (mesh.h, lines 120-124).  The mesh state
and the static repr configuration are threaded through to express that
the const accessor leaves both untouched. -/
def IsDoubleSided (m : HdMesh) (delegate : HdSceneDelegate)
    (cfg : MeshReprConfig) : Bool × HdMesh × MeshReprConfig :=
  (delegate.GetDoubleSided m.id, m, cfg)

/-- `HdMesh::GetCullStyle` (mesh.h, lines 126-130). -/
def GetCullStyle (m : HdMesh) (delegate : HdSceneDelegate)
    (cfg : MeshReprConfig) : HdCullStyle × HdMesh × MeshReprConfig :=
  (delegate.GetCullStyle m.id, m, cfg)

/-- `HdMesh::GetMeshTopology` (mesh.h, lines 132-136). -/
def GetMeshTopology (m : HdMesh) (delegate : HdSceneDelegate)
    (cfg : MeshReprConfig) : HdMeshTopology × HdMesh × MeshReprConfig :=
  (delegate.GetMeshTopology m.id, m, cfg)

/-- `HdMesh::GetRefineLevel` (mesh.h, lines 138-142). -/
def GetRefineLevel (m : HdMesh) (delegate : HdSceneDelegate)
    (cfg : MeshReprConfig) : Int × HdMesh × MeshReprConfig :=
  (delegate.GetRefineLevel m.id, m, cfg)

/-- `HdMesh::GetSubdivTags` (mesh.h, lines 144-148). -/
def GetSubdivTags (m : HdMesh) (delegate : HdSceneDelegate)
    (cfg : MeshReprConfig) : PxOsdSubdivTags × HdMesh × MeshReprConfig :=
  (delegate.GetSubdivTags m.id, m, cfg)

/-- `HdMesh::GetPoints` (mesh.h, lines 150-154). -/
def GetPoints (m : HdMesh) (delegate : HdSceneDelegate)
    (cfg : MeshReprConfig) : VtValue × HdMesh × MeshReprConfig :=
  (m.GetPrimVar delegate HdTokensPoints, m, cfg)

/-- `HdMesh::GetNormals` (mesh.h, lines 156-160). -/
def GetNormals (m : HdMesh) (delegate : HdSceneDelegate)
    (cfg : MeshReprConfig) : VtValue × HdMesh × MeshReprConfig :=
  (m.GetPrimVar delegate HdTokensNormals, m, cfg)

end HdMesh

end Hd

namespace USD

/-- The loop predicate of the ancestor-fixing walk: the prim entry at
`q` exists and carries an empty type name. -/
def emptyTypePred (st : UsdStage) (q : SdfPath) : Bool :=
  decide (st.typeNameAt q = some "")

/-- The ancestors actually retyped by the ancestor-fixing loop started
at `p`: the longest contiguous chain of empty-typed prims walking up
parent-by-parent from `p` itself. -/
def pendingChain (st : UsdStage) (p : SdfPath) : List SdfPath :=
  (ancestorChainFrom p).takeWhile (emptyTypePred st)

/-- A sample stage used by concrete witnesses: a typeless prim at `/A`
below which a `Scope`-typed prim sits at `/A/B`. -/
def sampleStage : UsdStage := ⟨[(["A"], ""), (["A", "B"], "Scope")]⟩

end USD

/-! ## Supporting lemmas -/

namespace USD

theorem lookupType_setTypeList_self (l : List (SdfPath × String)) (p : SdfPath)
    (ty : String) : lookupType (setTypeList l p ty) p = some ty := by
  induction l with
  | nil => simp [setTypeList, lookupType]
  | cons e rest ih =>
    by_cases h : e.1 = p
    · simp [setTypeList, h, lookupType]
    · simp [setTypeList, h, lookupType, ih]

theorem lookupType_setTypeList_other (l : List (SdfPath × String)) (p q : SdfPath)
    (ty : String) (h : q ≠ p) :
    lookupType (setTypeList l p ty) q = lookupType l q := by
  induction l with
  | nil => simp [setTypeList, lookupType, Ne.symm h]
  | cons e rest ih =>
    by_cases he : e.1 = p
    · simp [setTypeList, he, lookupType, Ne.symm h]
    · simp only [setTypeList, if_neg he, lookupType]
      by_cases hq : e.1 = q
      · simp [hq]
      · simp [hq, ih]

theorem typeNameAt_setType_self (st : UsdStage) (p : SdfPath) (ty : String) :
    (st.setType p ty).typeNameAt p = some ty :=
  lookupType_setTypeList_self st.prims p ty

theorem typeNameAt_setType_other (st : UsdStage) (p q : SdfPath) (ty : String)
    (h : q ≠ p) : (st.setType p ty).typeNameAt q = st.typeNameAt q :=
  lookupType_setTypeList_other st.prims p q ty h

theorem hasPrimEntry_setType (st : UsdStage) (p q : SdfPath) (ty : String)
    (h : st.hasPrimEntry q = true) : (st.setType p ty).hasPrimEntry q = true := by
  unfold UsdStage.hasPrimEntry at *
  by_cases hq : q = p
  · subst hq
    rw [show (st.setType q ty).prims = setTypeList st.prims q ty from rfl,
      lookupType_setTypeList_self]
    rfl
  · rw [show (st.setType p ty).prims = setTypeList st.prims p ty from rfl,
      lookupType_setTypeList_other st.prims p q ty hq]
    exact h

theorem ensurePrim_of_hasPrimEntry (st : UsdStage) (q : SdfPath)
    (h : st.hasPrimEntry q = true) : st.ensurePrim q = st := by
  unfold UsdStage.ensurePrim
  by_cases hq : q = []
  · simp [hq]
  · rw [if_neg hq, if_pos (show (lookupType st.prims q).isSome = true from h)]

theorem hasPrimEntry_ensurePrim_self (st : UsdStage) (q : SdfPath) (hq : q ≠ []) :
    (st.ensurePrim q).hasPrimEntry q = true := by
  unfold UsdStage.ensurePrim
  rw [if_neg hq]
  by_cases h : (lookupType st.prims q).isSome = true
  · rw [if_pos h]; exact h
  · rw [if_neg h]
    simp [UsdStage.hasPrimEntry, lookupType]

theorem hasPrimEntry_ensurePrim (st : UsdStage) (r q : SdfPath)
    (h : st.hasPrimEntry q = true) : (st.ensurePrim r).hasPrimEntry q = true := by
  unfold UsdStage.ensurePrim
  by_cases hr : r = []
  · rw [if_pos hr]; exact h
  · rw [if_neg hr]
    by_cases hs : (lookupType st.prims r).isSome = true
    · rw [if_pos hs]; exact h
    · rw [if_neg hs]
      unfold UsdStage.hasPrimEntry at *
      by_cases hrq : r = q
      · simp [lookupType, hrq]
      · simp only [lookupType, if_neg hrq]
        exact h

theorem ensureChain_noop (st : UsdStage) (l : List SdfPath)
    (h : ∀ q ∈ l, st.hasPrimEntry q = true) : st.ensureChain l = st := by
  induction l with
  | nil => rfl
  | cons q rest ih =>
    show (st.ensurePrim q).ensureChain rest = st
    rw [ensurePrim_of_hasPrimEntry st q (h q (List.mem_cons_self q rest))]
    exact ih fun r hr => h r (List.mem_cons_of_mem q hr)

theorem hasPrimEntry_ensureChain (st : UsdStage) (l : List SdfPath) (q : SdfPath)
    (h : st.hasPrimEntry q = true) : (st.ensureChain l).hasPrimEntry q = true := by
  induction l generalizing st with
  | nil => exact h
  | cons r rest ih =>
    show ((st.ensurePrim r).ensureChain rest).hasPrimEntry q = true
    exact ih (st.ensurePrim r) (hasPrimEntry_ensurePrim st r q h)

theorem hasPrimEntry_ensureChain_mem (st : UsdStage) (l : List SdfPath)
    (q : SdfPath) (hq : q ∈ l) (hne : q ≠ []) :
    (st.ensureChain l).hasPrimEntry q = true := by
  induction l generalizing st with
  | nil => cases hq
  | cons r rest ih =>
    show ((st.ensurePrim r).ensureChain rest).hasPrimEntry q = true
    rcases List.mem_cons.mp hq with rfl | hmem
    · exact hasPrimEntry_ensureChain _ rest q (hasPrimEntry_ensurePrim_self st q hne)
    · exact ih _ hmem

theorem ancestorChainFrom_nil : ancestorChainFrom [] = [] := rfl

theorem ancestorChainFrom_cons (p : SdfPath) (hp : p ≠ []) :
    ancestorChainFrom p = p :: ancestorChainFrom p.dropLast := by
  obtain ⟨x, xs, rfl⟩ := List.exists_cons_of_ne_nil hp
  show ancestorChainFromAux (x :: xs).length (x :: xs) = _
  rw [List.length_cons]
  show (x :: xs) :: ancestorChainFromAux xs.length ((x :: xs).dropLast) = _
  unfold ancestorChainFrom
  rw [show ((x :: xs).dropLast).length = xs.length by
    rw [List.length_dropLast, List.length_cons]; omega]

theorem mem_ancestorChainFrom_aux (n : Nat) :
    ∀ (p q : SdfPath), p.length ≤ n → q ∈ ancestorChainFrom p →
      q.length ≤ p.length ∧ q ≠ [] := by
  induction n with
  | zero =>
    intro p q hlen hq
    have hp : p = [] := List.length_eq_zero.mp (Nat.le_zero.mp hlen)
    rw [hp, ancestorChainFrom_nil] at hq
    cases hq
  | succ n ih =>
    intro p q hlen hq
    by_cases hp : p = []
    · rw [hp, ancestorChainFrom_nil] at hq
      cases hq
    · rw [ancestorChainFrom_cons p hp] at hq
      rcases List.mem_cons.mp hq with rfl | hmem
      · exact ⟨le_refl _, hp⟩
      · have hpos : 0 < p.length := List.length_pos.mpr hp
        have hdl : p.dropLast.length ≤ n := by
          rw [List.length_dropLast]; omega
        have h2 := ih p.dropLast q hdl hmem
        refine ⟨h2.1.trans ?_, h2.2⟩
        rw [List.length_dropLast]; omega

theorem mem_ancestorChainFrom (p q : SdfPath) (hq : q ∈ ancestorChainFrom p) :
    q.length ≤ p.length ∧ q ≠ [] :=
  mem_ancestorChainFrom_aux p.length p q (le_refl _) hq

theorem not_mem_ancestorChainFrom_dropLast (p : SdfPath) (hp : p ≠ []) :
    p ∉ ancestorChainFrom p.dropLast := by
  intro hmem
  have h1 := (mem_ancestorChainFrom p.dropLast p hmem).1
  have h2 : 0 < p.length := List.length_pos.mpr hp
  rw [List.length_dropLast] at h1
  omega

theorem takeWhile_congr_mem {α : Type} (f g : α → Bool) :
    ∀ (l : List α), (∀ x ∈ l, f x = g x) → l.takeWhile f = l.takeWhile g := by
  intro l
  induction l with
  | nil => intro _; rfl
  | cons a l ih =>
    intro h
    have ha := h a (List.mem_cons_self a l)
    by_cases hfa : f a = true
    · rw [List.takeWhile_cons_of_pos hfa, List.takeWhile_cons_of_pos (ha ▸ hfa),
        ih fun x hx => h x (List.mem_cons_of_mem a hx)]
    · have hga : ¬g a = true := fun hg => hfa (by rw [ha]; exact hg)
      rw [List.takeWhile_cons_of_neg hfa, List.takeWhile_cons_of_neg hga]

theorem getPrimAtPath_eq_of_typeNameAt (st : UsdStage) (p : SdfPath) (hp : p ≠ [])
    (ty : String) (hty : st.typeNameAt p = some ty) :
    st.getPrimAtPath p = some ⟨p, ty⟩ := by
  unfold UsdStage.getPrimAtPath
  rw [if_neg hp, hty]
  rfl

theorem getPrimAtPath_none (st : UsdStage) (p : SdfPath) (hp : p ≠ [])
    (hty : st.typeNameAt p = none) : st.getPrimAtPath p = none := by
  unfold UsdStage.getPrimAtPath
  rw [if_neg hp, hty]
  rfl

theorem hasPrimEntry_of_getPrimAtPath (st : UsdStage) (p : SdfPath) (hp : p ≠ [])
    (h : (st.getPrimAtPath p).isSome = true) : st.hasPrimEntry p = true := by
  unfold UsdStage.getPrimAtPath at h
  rw [if_neg hp] at h
  cases hl : st.typeNameAt p with
  | none => rw [hl] at h; simp at h
  | some ty =>
    show (st.typeNameAt p).isSome = true
    rw [hl]
    rfl

theorem define_eq (st : UsdStage) (p : SdfPath) (hp : p ≠ []) :
    UsdGeomXform.define st p =
      ((st.ensureChain (ancestorChainFrom p.dropLast)).setType p "Xform",
        some ⟨p, "Xform"⟩) := by
  unfold UsdGeomXform.define UsdStage.definePrim
  rw [if_neg hp]

theorem define_hasPrimEntry_chain (st : UsdStage) (path : SdfPath) (hp : path ≠ []) :
    ∀ q ∈ ancestorChainFrom path.dropLast,
      ((UsdGeomXform.define st path).1).hasPrimEntry q = true := by
  intro q hq
  rw [define_eq st path hp]
  exact hasPrimEntry_setType _ path q "Xform"
    (hasPrimEntry_ensureChain_mem st _ q hq (mem_ancestorChainFrom _ q hq).2)

theorem emptyTypePred_setType (st : UsdStage) (p q : SdfPath) (ty : String)
    (h : q ≠ p) : emptyTypePred (st.setType p ty) q = emptyTypePred st q := by
  unfold emptyTypePred
  rw [typeNameAt_setType_other st p q ty h]

theorem fixAncestorsAux_nil (n : Nat) (st : UsdStage) :
    fixAncestorsAux (n + 1) st [] = st := rfl

theorem fixAncestorsAux_succ (n : Nat) (st : UsdStage) (p : SdfPath) :
    fixAncestorsAux (n + 1) st p =
      match st.getPrimAtPath p with
      | none => st
      | some pr =>
        if pr.typeName = "" then
          if p = [] then (UsdGeomXform.define st p).1
          else fixAncestorsAux n ((UsdGeomXform.define st p).1) p.dropLast
        else st := rfl

theorem fixAncestorsAux_stop (n : Nat) (st : UsdStage) (p : SdfPath)
    (hp : p ≠ []) (ty : String) (hty : st.typeNameAt p = some ty)
    (hne : ty ≠ "") : fixAncestorsAux (n + 1) st p = st := by
  rw [fixAncestorsAux_succ, getPrimAtPath_eq_of_typeNameAt st p hp ty hty]
  simp [hne]

theorem fixAncestorsAux_step (n : Nat) (st : UsdStage) (p : SdfPath)
    (hp : p ≠ []) (hty : st.typeNameAt p = some "") :
    fixAncestorsAux (n + 1) st p =
      fixAncestorsAux n ((UsdGeomXform.define st p).1) p.dropLast := by
  rw [fixAncestorsAux_succ, getPrimAtPath_eq_of_typeNameAt st p hp "" hty]
  simp [hp]

theorem fixAncestorsAux_spec (n : Nat) :
    ∀ (p : SdfPath) (st : UsdStage), p.length ≤ n →
      (∀ q ∈ ancestorChainFrom p, st.hasPrimEntry q = true) →
      (∀ q ∈ pendingChain st p,
        (fixAncestorsAux (n + 1) st p).typeNameAt q = some "Xform") ∧
      (∀ q, q ∉ pendingChain st p →
        (fixAncestorsAux (n + 1) st p).typeNameAt q = st.typeNameAt q) := by
  induction n with
  | zero =>
    intro p st hlen _hex
    have hp : p = [] := List.length_eq_zero.mp (Nat.le_zero.mp hlen)
    subst hp
    refine ⟨fun q hq => ?_, fun q _ => by rw [fixAncestorsAux_nil]⟩
    rw [pendingChain, ancestorChainFrom_nil] at hq
    cases hq
  | succ n ih =>
    intro p st hlen hex
    by_cases hp : p = []
    · subst hp
      refine ⟨fun q hq => ?_, fun q _ => by rw [fixAncestorsAux_nil]⟩
      rw [pendingChain, ancestorChainFrom_nil] at hq
      cases hq
    · have hmemp : p ∈ ancestorChainFrom p := by
        rw [ancestorChainFrom_cons p hp]
        exact List.mem_cons_self p _
      have hsome : (st.typeNameAt p).isSome = true := hex p hmemp
      obtain ⟨ty, hty⟩ := Option.isSome_iff_exists.mp hsome
      by_cases hty0 : ty = ""
      · subst hty0
        have hchainmem : ∀ q ∈ ancestorChainFrom p.dropLast,
            st.hasPrimEntry q = true := fun q hq =>
          hex q (by rw [ancestorChainFrom_cons p hp]
                    exact List.mem_cons_of_mem p hq)
        have hnoop : st.ensureChain (ancestorChainFrom p.dropLast) = st :=
          ensureChain_noop st _ hchainmem
        have hdef : (UsdGeomXform.define st p).1 = st.setType p "Xform" := by
          rw [define_eq st p hp, hnoop]
        have hne_q : ∀ q ∈ ancestorChainFrom p.dropLast, q ≠ p :=
          fun q hq h => not_mem_ancestorChainFrom_dropLast p hp (h ▸ hq)
        have hexA : ∀ q ∈ ancestorChainFrom p.dropLast,
            (st.setType p "Xform").hasPrimEntry q = true :=
          fun q hq => hasPrimEntry_setType st p q "Xform" (hchainmem q hq)
        have hlenA : p.dropLast.length ≤ n := by
          have hpos : 0 < p.length := List.length_pos.mpr hp
          rw [List.length_dropLast]; omega
        have ihA := ih p.dropLast (st.setType p "Xform") hlenA hexA
        have hpred : emptyTypePred st p = true := by
          unfold emptyTypePred
          rw [hty]
          rfl
        have hchain_eq : pendingChain st p =
            p :: pendingChain (st.setType p "Xform") p.dropLast := by
          rw [pendingChain, ancestorChainFrom_cons p hp,
            List.takeWhile_cons_of_pos hpred]
          congr 1
          exact takeWhile_congr_mem (emptyTypePred st)
            (emptyTypePred (st.setType p "Xform")) _
            (fun q hq => (emptyTypePred_setType st p q "Xform" (hne_q q hq)).symm)
        rw [fixAncestorsAux_step (n + 1) st p hp hty, hdef, hchain_eq]
        constructor
        · intro q hq
          rcases List.mem_cons.mp hq with rfl | hq'
          · have hnot : q ∉ pendingChain (st.setType q "Xform") q.dropLast :=
              fun hmem' => not_mem_ancestorChainFrom_dropLast q hp
                ((List.takeWhile_sublist _).subset hmem')
            rw [ihA.2 q hnot]
            exact typeNameAt_setType_self st q "Xform"
          · exact ihA.1 q hq'
        · intro q hq
          have hq_ne_p : q ≠ p := fun h => hq (h ▸ List.mem_cons_self p _)
          have hq_notA : q ∉ pendingChain (st.setType p "Xform") p.dropLast :=
            fun h => hq (List.mem_cons_of_mem p h)
          rw [ihA.2 q hq_notA]
          exact typeNameAt_setType_other st p q "Xform" hq_ne_p
      · have hpredf : ¬emptyTypePred st p = true := by
          unfold emptyTypePred
          rw [hty]
          simp [hty0]
        have hchain : pendingChain st p = [] := by
          rw [pendingChain, ancestorChainFrom_cons p hp,
            List.takeWhile_cons_of_neg hpredf]
        rw [fixAncestorsAux_stop (n + 1) st p hp ty hty hty0]
        refine ⟨fun q hq => ?_, fun q _ => rfl⟩
        rw [hchain] at hq
        cases hq

theorem fixAncestors_spec (st : UsdStage) (p : SdfPath)
    (hex : ∀ q ∈ ancestorChainFrom p, st.hasPrimEntry q = true) :
    (∀ q ∈ pendingChain st p,
      (st.fixAncestors p).typeNameAt q = some "Xform") ∧
    (∀ q, q ∉ pendingChain st p →
      (st.fixAncestors p).typeNameAt q = st.typeNameAt q) :=
  fixAncestorsAux_spec p.length p st (le_refl _) hex

theorem typeNameAt_ensurePrim_of_some (st : UsdStage) (r q : SdfPath)
    (ty : String) (h : st.typeNameAt q = some ty) :
    (st.ensurePrim r).typeNameAt q = some ty := by
  unfold UsdStage.ensurePrim
  by_cases hr : r = []
  · rw [if_pos hr]; exact h
  · rw [if_neg hr]
    by_cases hs : (lookupType st.prims r).isSome = true
    · rw [if_pos hs]; exact h
    · rw [if_neg hs]
      show lookupType ((r, "") :: st.prims) q = some ty
      by_cases hrq : r = q
      · subst hrq
        exfalso
        have h' : lookupType st.prims r = some ty := h
        rw [h'] at hs
        simp at hs
      · simp only [lookupType, if_neg hrq]
        exact h

theorem typeNameAt_ensurePrim_of_none (st : UsdStage) (r q : SdfPath)
    (h : st.typeNameAt q = none) :
    (st.ensurePrim r).typeNameAt q = none ∨
    (st.ensurePrim r).typeNameAt q = some "" := by
  unfold UsdStage.ensurePrim
  by_cases hr : r = []
  · rw [if_pos hr]; exact Or.inl h
  · rw [if_neg hr]
    by_cases hs : (lookupType st.prims r).isSome = true
    · rw [if_pos hs]; exact Or.inl h
    · rw [if_neg hs]
      by_cases hrq : r = q
      · subst hrq
        refine Or.inr ?_
        show lookupType ((r, "") :: st.prims) r = some ""
        simp [lookupType]
      · refine Or.inl ?_
        show lookupType ((r, "") :: st.prims) q = none
        simp only [lookupType, if_neg hrq]
        exact h

theorem typeNameAt_ensureChain_of_some (st : UsdStage) (l : List SdfPath)
    (q : SdfPath) (ty : String) (h : st.typeNameAt q = some ty) :
    (st.ensureChain l).typeNameAt q = some ty := by
  induction l generalizing st with
  | nil => exact h
  | cons r rest ih =>
    show ((st.ensurePrim r).ensureChain rest).typeNameAt q = some ty
    exact ih _ (typeNameAt_ensurePrim_of_some st r q ty h)

theorem typeNameAt_ensureChain_of_none (st : UsdStage) (l : List SdfPath)
    (q : SdfPath) (h : st.typeNameAt q = none) :
    (st.ensureChain l).typeNameAt q = none ∨
    (st.ensureChain l).typeNameAt q = some "" := by
  induction l generalizing st with
  | nil => exact Or.inl h
  | cons r rest ih =>
    show ((st.ensurePrim r).ensureChain rest).typeNameAt q = none ∨
      ((st.ensurePrim r).ensureChain rest).typeNameAt q = some ""
    rcases typeNameAt_ensurePrim_of_none st r q h with h' | h'
    · exact ih _ h'
    · exact Or.inr (typeNameAt_ensureChain_of_some _ rest q "" h')

theorem overridePrim_snd (st : UsdStage) (p : SdfPath) (hp : p ≠ [])
    (ty : String) (hty : st.typeNameAt p = some ty) :
    (st.overridePrim p).2 = some ⟨p, ty⟩ := by
  unfold UsdStage.overridePrim
  rw [if_neg hp]
  exact getPrimAtPath_eq_of_typeNameAt _ p hp ty
    (typeNameAt_ensurePrim_of_some _ p p ty
      (typeNameAt_ensureChain_of_some st _ p ty hty))

theorem overridePrim_preserves_some (st : UsdStage) (p q : SdfPath)
    (ty : String) (h : st.typeNameAt q = some ty) :
    ((st.overridePrim p).1).typeNameAt q = some ty := by
  unfold UsdStage.overridePrim
  by_cases hp : p = []
  · rw [if_pos hp]; exact h
  · rw [if_neg hp]
    exact typeNameAt_ensurePrim_of_some _ p q ty
      (typeNameAt_ensureChain_of_some st _ q ty h)

theorem overridePrim_creates_typeless (st : UsdStage) (p q : SdfPath)
    (h : st.typeNameAt q = none) :
    ((st.overridePrim p).1).typeNameAt q = none ∨
    ((st.overridePrim p).1).typeNameAt q = some "" := by
  unfold UsdStage.overridePrim
  by_cases hp : p = []
  · rw [if_pos hp]; exact Or.inl h
  · rw [if_neg hp]
    rcases typeNameAt_ensureChain_of_none st _ q h with h' | h'
    · exact typeNameAt_ensurePrim_of_none _ p q h'
    · exact Or.inr (typeNameAt_ensurePrim_of_some _ p q "" h')

end USD

/-! ## Claims about `GusdXformWrapper` -/

/-- C2: `GusdXformWrapper::isValid` returns true exactly when the
write-side member holds a valid Xformable; both operands of its
disjunction test `m_usdXformForWrite`, so it is independent of the
read side, and every wrapper constructed by `defineForRead` is
reported invalid. -/
theorem C2_isValid_ignores_read_side :
    (∀ w : USD.GusdXformWrapper, w.isValid = w.usdXformForWrite.isValid) ∧
    (∀ w w' : USD.GusdXformWrapper,
       w.usdXformForWrite = w'.usdXformForWrite → w.isValid = w'.isValid) ∧
    (∀ (stage : USD.GusdUSD_StageProxy) (sourcePrim : USD.UsdGeomImageable)
       (time : USD.UsdTimeCode) (purposes : USD.GusdPurposeSet),
       (USD.GusdXformWrapper.defineForRead stage sourcePrim time purposes).isValid
         = false) := by
  refine ⟨fun w => ?_, fun w w' h => ?_, fun stage sourcePrim time purposes => rfl⟩
  · simp [USD.GusdXformWrapper.isValid]
  · simp [USD.GusdXformWrapper.isValid, h]

/-- Witness for C2: two concrete wrappers agreeing on the write side
(one of them carrying a read-side holder) are assigned the same
validity. -/
theorem C2_isValid_ignores_read_side_witness :
    (USD.GusdXformWrapper.mk ⟨none⟩ none none 0 0 []).usdXformForWrite =
      (USD.GusdXformWrapper.mk ⟨none⟩ (some ⟨⟨none⟩, 7⟩) none 3 1 []).usdXformForWrite ∧
    (USD.GusdXformWrapper.mk ⟨none⟩ none none 0 0 []).isValid =
      (USD.GusdXformWrapper.mk ⟨none⟩ (some ⟨⟨none⟩, 7⟩) none 3 1 []).isValid :=
  ⟨rfl, C2_isValid_ignores_read_side.2.1
    (USD.GusdXformWrapper.mk ⟨none⟩ none none 0 0 [])
    (USD.GusdXformWrapper.mk ⟨none⟩ (some ⟨⟨none⟩, 7⟩) none 3 1 []) rfl⟩

/-- C3: `GusdXformWrapper::updateFromGTPrim` returns `false` and
leaves the stage unchanged when the write-side Xformable is invalid,
and otherwise returns exactly `updateGroupFromGTPrim` applied to the
write-side Xformable and the given arguments. -/
theorem C3_updateFromGTPrim_guard :
    ∀ (updateGroupFromGTPrim : USD.UsdGeomXformable → USD.GT_PrimitiveHandle →
        USD.UT_Matrix4D → USD.GusdContext → USD.GusdSimpleXformCache →
        USD.UsdStage → Bool × USD.UsdStage)
      (w : USD.GusdXformWrapper) (sourcePrim : USD.GT_PrimitiveHandle)
      (localXform : USD.UT_Matrix4D) (ctxt : USD.GusdContext)
      (xformCache : USD.GusdSimpleXformCache) (st : USD.UsdStage),
      (w.usdXformForWrite.isValid = false →
        USD.GusdXformWrapper.updateFromGTPrim updateGroupFromGTPrim w sourcePrim
          localXform ctxt xformCache st = (false, st)) ∧
      (w.usdXformForWrite.isValid = true →
        USD.GusdXformWrapper.updateFromGTPrim updateGroupFromGTPrim w sourcePrim
          localXform ctxt xformCache st =
        updateGroupFromGTPrim w.usdXformForWrite sourcePrim localXform ctxt
          xformCache st) := by
  intro upd w sourcePrim localXform ctxt xformCache st
  constructor
  · intro h
    simp [USD.GusdXformWrapper.updateFromGTPrim, h]
  · intro h
    simp [USD.GusdXformWrapper.updateFromGTPrim, h]

/-- Witness for C3: a concrete wrapper with an invalid write side, a
concrete update function, and a concrete stage — the call returns
`false` and that exact stage. -/
theorem C3_updateFromGTPrim_guard_witness :
    (USD.GusdXformWrapper.mk ⟨none⟩ none none 0 0 []).usdXformForWrite.isValid
      = false ∧
    USD.GusdXformWrapper.updateFromGTPrim
      (fun _ _ _ _ _ st => (true, st))
      (USD.GusdXformWrapper.mk ⟨none⟩ none none 0 0 [])
      ⟨0⟩ ⟨[]⟩ ⟨true, 0⟩ [] ⟨[(["A"], "Xform")]⟩ =
      (false, ⟨[(["A"], "Xform")]⟩) :=
  ⟨rfl, (C3_updateFromGTPrim_guard (fun _ _ _ _ _ st => (true, st))
      (USD.GusdXformWrapper.mk ⟨none⟩ none none 0 0 [])
      ⟨0⟩ ⟨[]⟩ ⟨true, 0⟩ [] ⟨[(["A"], "Xform")]⟩).1 rfl⟩

/-- C4: `GusdXformWrapper::redefine` always returns `true`; its only
effects are re-running `initUsdPrim` with `ctxt.overlayGeo` into the
write-side member and clearing the caches (the read side, proxy, time
and purposes are untouched), and the source primitive is ignored. -/
theorem C4_redefine_always_true :
    ∀ (w : USD.GusdXformWrapper) (st : USD.UsdStage) (path : USD.SdfPath)
      (ctxt : USD.GusdContext) (sourcePrim : USD.GT_PrimitiveHandle),
      (USD.GusdXformWrapper.redefine w st path ctxt sourcePrim).1 = true ∧
      (USD.GusdXformWrapper.redefine w st path ctxt sourcePrim).2.1 =
        { w with usdXformForWrite := (USD.initUsdPrim st path ctxt.overlayGeo).xf,
                 caches := [] } ∧
      (USD.GusdXformWrapper.redefine w st path ctxt sourcePrim).2.2 =
        (USD.initUsdPrim st path ctxt.overlayGeo).stage ∧
      (∀ sourcePrim' : USD.GT_PrimitiveHandle,
        USD.GusdXformWrapper.redefine w st path ctxt sourcePrim' =
        USD.GusdXformWrapper.redefine w st path ctxt sourcePrim) := by
  intro w st path ctxt sourcePrim
  exact ⟨rfl, rfl, rfl, fun _ => rfl⟩

/-- C8: `GusdXformWrapper::defineForWrite` constructs the wrapper via
the write constructor, whose write side is `initUsdPrim(stage, path,
ctxt.overlayGeo)`; the source primitive is ignored and only the
context's `overlayGeo` flag matters. -/
theorem C8_defineForWrite_overlay_only :
    (∀ (sourcePrim : USD.GT_PrimitiveHandle) (st : USD.UsdStage)
       (path : USD.SdfPath) (ctxt : USD.GusdContext),
       USD.GusdXformWrapper.defineForWrite sourcePrim st path ctxt =
         USD.GusdXformWrapper.mkForWrite st path ctxt.overlayGeo ∧
       (USD.GusdXformWrapper.defineForWrite sourcePrim st path ctxt).1.usdXformForWrite
         = (USD.initUsdPrim st path ctxt.overlayGeo).xf ∧
       (USD.GusdXformWrapper.defineForWrite sourcePrim st path ctxt).2
         = (USD.initUsdPrim st path ctxt.overlayGeo).stage) ∧
    (∀ (s1 s2 : USD.GT_PrimitiveHandle) (st : USD.UsdStage) (path : USD.SdfPath)
       (c1 c2 : USD.GusdContext), c1.overlayGeo = c2.overlayGeo →
       USD.GusdXformWrapper.defineForWrite s1 st path c1 =
       USD.GusdXformWrapper.defineForWrite s2 st path c2) := by
  constructor
  · intro sourcePrim st path ctxt
    exact ⟨rfl, rfl, rfl⟩
  · intro s1 s2 st path c1 c2 h
    simp [USD.GusdXformWrapper.defineForWrite, h]

/-- Witness for C8: two concrete contexts with equal `overlayGeo` but
different remaining state, and two different source primitives, give
the same wrapper. -/
theorem C8_defineForWrite_overlay_only_witness :
    (USD.GusdContext.mk true 0).overlayGeo = (USD.GusdContext.mk true 5).overlayGeo ∧
    USD.GusdXformWrapper.defineForWrite ⟨1⟩ ⟨[]⟩ ["A"] (USD.GusdContext.mk true 0) =
      USD.GusdXformWrapper.defineForWrite ⟨2⟩ ⟨[]⟩ ["A"] (USD.GusdContext.mk true 5) :=
  ⟨rfl, C8_defineForWrite_overlay_only.2 ⟨1⟩ ⟨2⟩ ⟨[]⟩ ["A"]
    (USD.GusdContext.mk true 0) (USD.GusdContext.mk true 5) rfl⟩

/-- C9: `GusdXformWrapper::defineForRead` returns a wrapper holding
`UsdGeomXform(sourcePrim.GetPrim())` with the stage proxy's lock as
the read-side holder, storing the stage proxy, time and purposes, and
leaving the write-side Xformable unset. -/
theorem C9_defineForRead_fields :
    ∀ (stage : USD.GusdUSD_StageProxy) (sourcePrim : USD.UsdGeomImageable)
      (time : USD.UsdTimeCode) (purposes : USD.GusdPurposeSet),
      (USD.GusdXformWrapper.defineForRead stage sourcePrim time purposes).usdXformForRead
        = some ⟨⟨sourcePrim.prim⟩, stage.lock⟩ ∧
      (USD.GusdXformWrapper.defineForRead stage sourcePrim time purposes).stageProxy
        = some stage ∧
      (USD.GusdXformWrapper.defineForRead stage sourcePrim time purposes).time = time ∧
      (USD.GusdXformWrapper.defineForRead stage sourcePrim time purposes).purposes
        = purposes ∧
      (USD.GusdXformWrapper.defineForRead stage sourcePrim time purposes).usdXformForWrite
        = ⟨none⟩ := by
  intro stage sourcePrim time purposes
  exact ⟨rfl, rfl, rfl, rfl, rfl⟩

/-- C10: `enlargeBounds` leaves every box untouched, `getMotionSegments`
always returns 1 and `getMemoryUsage` always returns 0. -/
theorem C10_enlargeBounds_noop :
    ∀ (w : USD.GusdXformWrapper) (boxes : List USD.UT_BoundingBox)
      (nsegments : Int),
      USD.GusdXformWrapper.enlargeBounds w boxes nsegments = boxes ∧
      (∀ i : Nat, (USD.GusdXformWrapper.enlargeBounds w boxes nsegments)[i]? =
        boxes[i]?) ∧
      USD.GusdXformWrapper.getMotionSegments w = 1 ∧
      USD.GusdXformWrapper.getMemoryUsage w = 0 := by
  intro w boxes nsegments
  exact ⟨rfl, fun i => rfl, rfl, rfl⟩

/-! ## Claims about `HdMesh` -/

/-- C5: after `ConfigureRepr(reprName, desc1, desc2)`, a subsequent
`_GetReprDesc(reprName)` returns exactly the most recently configured
pair for that name, and the one-descriptor overload defaults the second
descriptor to `HdMeshReprDesc()`. -/
theorem C5_configureRepr_get_after_set :
    (∀ (c : Hd.MeshReprConfig) (reprName : Hd.TfToken)
       (d1 d2 : Hd.HdMeshReprDesc),
       Hd.GetReprDesc (Hd.ConfigureRepr c reprName d1 d2) reprName = (d1, d2)) ∧
    (∀ (c : Hd.MeshReprConfig) (reprName : Hd.TfToken) (d1 : Hd.HdMeshReprDesc),
       Hd.ConfigureRepr1 c reprName d1 =
         Hd.ConfigureRepr c reprName d1 Hd.HdMeshReprDesc.mkDefault) := by
  constructor
  · intro c reprName d1 d2
    simp [Hd.GetReprDesc, Hd.MeshReprConfig.find, Hd.ConfigureRepr,
      Hd.MeshReprConfig.append, List.find?]
  · intro c reprName d1
    rfl

/-- C6: the render-state and topology accessors of `HdMesh` are pure
single-call delegations through the scene delegate at the mesh's id,
leaving the mesh and the static repr configuration unchanged. -/
theorem C6_accessors_delegate :
    ∀ (m : Hd.HdMesh) (delegate : Hd.HdSceneDelegate) (cfg : Hd.MeshReprConfig),
      Hd.HdMesh.IsDoubleSided m delegate cfg = (delegate.GetDoubleSided m.id, m, cfg) ∧
      Hd.HdMesh.GetCullStyle m delegate cfg = (delegate.GetCullStyle m.id, m, cfg) ∧
      Hd.HdMesh.GetMeshTopology m delegate cfg = (delegate.GetMeshTopology m.id, m, cfg) ∧
      Hd.HdMesh.GetRefineLevel m delegate cfg = (delegate.GetRefineLevel m.id, m, cfg) ∧
      Hd.HdMesh.GetSubdivTags m delegate cfg = (delegate.GetSubdivTags m.id, m, cfg) := by
  intro m delegate cfg
  exact ⟨rfl, rfl, rfl, rfl, rfl⟩

/-- C1 (counterexample): two parts of the claim fail.  First, the
claim that the override-with-no-existing-prim case defines a
`UsdGeomXform` at EVERY ancestor prim whose type name is empty: on a
stage holding a typeless prim `/A` and a `Scope`-typed prim `/A/B`,
initializing `/A/B/C` in override mode (with no prim at that path)
leaves the empty-typed ancestor `/A` untouched, because the ancestor
loop stops at the first non-empty-typed ancestor `/A/B`.  Second, the
claim that the non-override case defines a `UsdGeomXform` at path for
every path: at the pseudo-root path the define fails, nothing is
authored, and `false` is returned. -/
theorem C1_initUsdPrim_counterexample :
    USD.sampleStage.getPrimAtPath ["A", "B", "C"] = none ∧
    USD.sampleStage.typeNameAt ["A"] = some "" ∧
    (USD.initUsdPrim USD.sampleStage ["A", "B", "C"] true).stage.typeNameAt ["A"]
      = some "" ∧
    ¬(USD.initUsdPrim USD.sampleStage ["A", "B", "C"] true).stage.typeNameAt ["A"]
      = some "Xform" ∧
    (USD.initUsdPrim (USD.UsdStage.mk []) [] false).stage = USD.UsdStage.mk [] ∧
    (USD.initUsdPrim (USD.UsdStage.mk []) [] false).ret = false ∧
    ¬(USD.initUsdPrim (USD.UsdStage.mk []) [] false).stage.typeNameAt []
      = some "Xform" := by
  decide

/-- C1 (amended): `initUsdPrim` behaves as follows, for every stage,
path and override flag.  When `asOverride` holds and a prim already
exists at the path, it targets that prim via `stage->OverridePrim` as a
generic Xformable: the write side wraps the existing prim, every
existing type name on the stage is preserved, and any prim entries
created are typeless — so no new Xform is defined.  When `asOverride`
holds and no prim exists, or `asOverride` is false, it defines a
`UsdGeomXform` at the path — except at the pseudo-root path, where the
define fails, nothing is authored and `false` is returned.  In the
override-with-no-existing-prim case it additionally defines a
`UsdGeomXform` at each ancestor in the contiguous chain of empty-typed
ancestors walking up from the new prim's parent — stopping at the
first ancestor with a non-empty type name, every other prim keeping
the type it has right after the define at the path.  In every case it
returns true exactly when the resulting write-side Xformable is
valid. -/
theorem C1_initUsdPrim_amended (st : USD.UsdStage) (path : USD.SdfPath)
    (asOverride : Bool) :
    ((USD.initUsdPrim st path asOverride).ret
       = (USD.initUsdPrim st path asOverride).xf.isValid) ∧
    (asOverride = true → (st.getPrimAtPath path).isSome = true →
      (USD.initUsdPrim st path asOverride).stage = (st.overridePrim path).1 ∧
      (USD.initUsdPrim st path asOverride).xf = ⟨(st.overridePrim path).2⟩ ∧
      (∀ ty, path ≠ [] → st.typeNameAt path = some ty →
        (USD.initUsdPrim st path asOverride).xf = ⟨some ⟨path, ty⟩⟩) ∧
      (∀ q ty, st.typeNameAt q = some ty →
        (USD.initUsdPrim st path asOverride).stage.typeNameAt q = some ty) ∧
      (∀ q, st.typeNameAt q = none →
        (USD.initUsdPrim st path asOverride).stage.typeNameAt q = none ∨
        (USD.initUsdPrim st path asOverride).stage.typeNameAt q = some "")) ∧
    ((asOverride = false ∨ st.getPrimAtPath path = none) →
      (path ≠ [] →
        (USD.initUsdPrim st path asOverride).stage.typeNameAt path
          = some "Xform" ∧
        (USD.initUsdPrim st path asOverride).xf = ⟨some ⟨path, "Xform"⟩⟩ ∧
        (USD.initUsdPrim st path asOverride).ret = true) ∧
      (path = [] →
        (USD.initUsdPrim st path asOverride).stage = st ∧
        (USD.initUsdPrim st path asOverride).xf = ⟨none⟩ ∧
        (USD.initUsdPrim st path asOverride).ret = false)) ∧
    (asOverride = true → st.getPrimAtPath path = none →
      (∀ q ∈ USD.pendingChain (USD.UsdGeomXform.define st path).1 path.dropLast,
        (USD.initUsdPrim st path asOverride).stage.typeNameAt q = some "Xform") ∧
      (∀ q, q ∉ USD.pendingChain (USD.UsdGeomXform.define st path).1 path.dropLast →
        (USD.initUsdPrim st path asOverride).stage.typeNameAt q =
          ((USD.UsdGeomXform.define st path).1).typeNameAt q)) ∧
    (asOverride = false →
      (USD.initUsdPrim st path asOverride).stage
        = (USD.UsdGeomXform.define st path).1) := by
  refine ⟨?_, ?_, ?_, ?_, ?_⟩
  · -- (i) the returned boolean is the write-side validity, in every branch
    cases asOverride with
    | false => rfl
    | true =>
      cases hg : st.getPrimAtPath path with
      | some pr => simp [USD.initUsdPrim, hg]
      | none =>
        cases h2 : (USD.UsdGeomXform.define st path).2 with
        | none => simp [USD.initUsdPrim, hg, h2]
        | some pr => simp [USD.initUsdPrim, hg, h2]
  · -- (ii) override with an existing prim
    intro ho hsome
    subst ho
    obtain ⟨pr, hg⟩ := Option.isSome_iff_exists.mp hsome
    have hred : USD.initUsdPrim st path true =
        ⟨(st.overridePrim path).1, ⟨(st.overridePrim path).2⟩,
         (⟨(st.overridePrim path).2⟩ : USD.UsdGeomXformable).isValid⟩ := by
      unfold USD.initUsdPrim
      rw [hg]
      rfl
    rw [hred]
    refine ⟨rfl, rfl, fun ty hp hty => ?_, fun q ty h => ?_, fun q h => ?_⟩
    · show (⟨(st.overridePrim path).2⟩ : USD.UsdGeomXformable)
        = ⟨some ⟨path, ty⟩⟩
      rw [USD.overridePrim_snd st path hp ty hty]
    · exact USD.overridePrim_preserves_some st path q ty h
    · exact USD.overridePrim_creates_typeless st path q h
  · -- (iii) a UsdGeomXform is defined at the path; at the pseudo-root the
    -- define fails and nothing is authored
    intro hcase
    constructor
    · intro hp
      have hdef := USD.define_eq st path hp
      cases asOverride with
      | false =>
        refine ⟨?_, ?_, ?_⟩
        · show ((USD.UsdGeomXform.define st path).1).typeNameAt path
            = some "Xform"
          rw [hdef]
          exact USD.typeNameAt_setType_self _ path "Xform"
        · show (⟨(USD.UsdGeomXform.define st path).2⟩ : USD.UsdGeomXformable)
            = ⟨some ⟨path, "Xform"⟩⟩
          rw [hdef]
        · show (⟨(USD.UsdGeomXform.define st path).2⟩ :
              USD.UsdGeomXformable).isValid = true
          rw [hdef]
          rfl
      | true =>
        have hnone : st.getPrimAtPath path = none := by
          rcases hcase with ho | hnone
          · cases ho
          · exact hnone
        have hred : USD.initUsdPrim st path true =
            ⟨((USD.UsdGeomXform.define st path).1).fixAncestors path.dropLast,
             ⟨(USD.UsdGeomXform.define st path).2⟩,
             (⟨(USD.UsdGeomXform.define st path).2⟩ :
               USD.UsdGeomXformable).isValid⟩ := by
          unfold USD.initUsdPrim
          rw [hnone, hdef]
          rfl
        have hex' := USD.define_hasPrimEntry_chain st path hp
        have hspec := USD.fixAncestors_spec ((USD.UsdGeomXform.define st path).1)
          path.dropLast hex'
        have hnotin : path ∉
            USD.pendingChain ((USD.UsdGeomXform.define st path).1) path.dropLast :=
          fun hmem => USD.not_mem_ancestorChainFrom_dropLast path hp
            ((List.takeWhile_sublist _).subset hmem)
        refine ⟨?_, ?_, ?_⟩
        · rw [hred]
          show (((USD.UsdGeomXform.define st path).1).fixAncestors
            path.dropLast).typeNameAt path = some "Xform"
          rw [hspec.2 path hnotin, hdef]
          exact USD.typeNameAt_setType_self _ path "Xform"
        · rw [hred]
          show (⟨(USD.UsdGeomXform.define st path).2⟩ : USD.UsdGeomXformable)
            = ⟨some ⟨path, "Xform"⟩⟩
          rw [hdef]
        · rw [hred]
          show (⟨(USD.UsdGeomXform.define st path).2⟩ :
              USD.UsdGeomXformable).isValid = true
          rw [hdef]
          rfl
    · intro hp
      subst hp
      cases asOverride with
      | false => exact ⟨rfl, rfl, rfl⟩
      | true =>
        exfalso
        rcases hcase with ho | hnone
        · cases ho
        · simp [USD.UsdStage.getPrimAtPath] at hnone
  · -- (iv) the contiguous empty-typed ancestor chain is retyped to Xform
    intro ho hnone
    subst ho
    have hp : path ≠ [] := by
      intro h
      subst h
      simp [USD.UsdStage.getPrimAtPath] at hnone
    have hdef := USD.define_eq st path hp
    have hred : USD.initUsdPrim st path true =
        ⟨((USD.UsdGeomXform.define st path).1).fixAncestors path.dropLast,
         ⟨(USD.UsdGeomXform.define st path).2⟩,
         (⟨(USD.UsdGeomXform.define st path).2⟩ :
           USD.UsdGeomXformable).isValid⟩ := by
      unfold USD.initUsdPrim
      rw [hnone, hdef]
      rfl
    have hex' := USD.define_hasPrimEntry_chain st path hp
    have hspec := USD.fixAncestors_spec ((USD.UsdGeomXform.define st path).1)
      path.dropLast hex'
    rw [hred]
    exact hspec
  · -- (v) without override the ancestor loop does not run
    intro ho
    subst ho
    rfl

/-- Witness for C1 (amended), exercising both main cases at concrete
inputs.  Fresh hierarchy: on an empty stage, initializing `/X/Y/Z` in
override mode retypes the whole chain of freshly created typeless
ancestors to `Xform`.  Override with an existing prim: on
`sampleStage`, initializing `/A/B` in override mode wraps the existing
`Scope` prim. -/
theorem C1_initUsdPrim_amended_witness :
    (USD.UsdStage.mk []).getPrimAtPath ["X", "Y", "Z"] = none ∧
    (∀ q ∈ USD.pendingChain
        (USD.UsdGeomXform.define (USD.UsdStage.mk []) ["X", "Y", "Z"]).1
        (["X", "Y", "Z"] : USD.SdfPath).dropLast,
      (USD.initUsdPrim (USD.UsdStage.mk []) ["X", "Y", "Z"] true).stage.typeNameAt
        q = some "Xform") ∧
    (USD.sampleStage.getPrimAtPath ["A", "B"]).isSome = true ∧
    USD.sampleStage.typeNameAt ["A", "B"] = some "Scope" ∧
    (USD.initUsdPrim USD.sampleStage ["A", "B"] true).xf
      = ⟨some ⟨["A", "B"], "Scope"⟩⟩ :=
  ⟨by decide,
   ((C1_initUsdPrim_amended (USD.UsdStage.mk []) ["X", "Y", "Z"] true).2.2.2.1
     rfl (by decide)).1,
   by decide,
   by decide,
   ((C1_initUsdPrim_amended USD.sampleStage ["A", "B"] true).2.1
     rfl (by decide)).2.2.1 "Scope" (by decide) (by decide)⟩


/-- C7: the primvar accessors route through the generic primvar lookup
with the fixed tokens `points` and `normals`, with no other effect. -/
theorem C7_primvar_accessors :
    ∀ (m : Hd.HdMesh) (delegate : Hd.HdSceneDelegate) (cfg : Hd.MeshReprConfig),
      Hd.HdMesh.GetPoints m delegate cfg =
        (Hd.HdMesh.GetPrimVar m delegate Hd.HdTokensPoints, m, cfg) ∧
      Hd.HdMesh.GetNormals m delegate cfg =
        (Hd.HdMesh.GetPrimVar m delegate Hd.HdTokensNormals, m, cfg) := by
  intro m delegate cfg
  exact ⟨rfl, rfl⟩
